import Mathlib

/-!
Shallow embedding of the tSax XML tokenizer (src/tsax.js, final revision:
the one with `text(raw)`, `attributes(raw)` and `piTarget()`).

JavaScript strings are modelled as lists of UTF-16 code units (`List Nat`).
The closure-captured mutable variables of `tSax` become the fields of
`TSaxState`; the immutable captured string `S` is passed explicitly.
JavaScript `NaN` results of `charCodeAt` and `undefined` string indexing are
modelled with `Option`.  The two loops of the source that can genuinely run
forever (`unescapeText`'s entity loop and the attribute-extraction loop) are
given explicit fuel and return `none` when the fuel runs out; the loops that
always terminate get enough fuel to never hit the bound on inputs reachable
from `next`.
-/

namespace Tsax

/-- A JavaScript string: a list of UTF-16 code units. -/
abbrev JStr := List Nat

/-- Build a `JStr` from a Lean string literal. -/
def js (s : String) : JStr := s.toList.map Char.toNat

/-- Model of `S.charCodeAt(i)`; `none` plays the role of `NaN`
(index out of range). -/
def charCodeAt (S : JStr) (i : Int) : Option Nat :=
  if 0 ≤ i then S[i.toNat]? else none

/-- Model of `S.substring(a, b)`: both ends are clamped to `[0, length]`
and swapped when given in reverse order. -/
def jsSubstring (S : JStr) (a b : Int) : JStr :=
  let lo := (max 0 (min a (S.length : Int))).toNat
  let hi := (max 0 (min b (S.length : Int))).toNat
  (S.take (max lo hi)).drop (min lo hi)

/-- Whether `needle` occurs in `S` at position `i`. -/
def occursAt (S needle : JStr) (i : Nat) : Bool :=
  needle.isPrefixOf (S.drop i)

/-- Model of `S.indexOf(needle, i)`: the start index is clamped to
`[0, length]`, the result is the first occurrence at or after it, or `-1`. -/
def jsIndexOf (S needle : JStr) (i : Int) : Int :=
  match (List.range (S.length + 1)).find?
      (fun j => decide ((max 0 (min i (S.length : Int))).toNat ≤ j) && occursAt S needle j) with
  | some j => (j : Int)
  | none => -1

/-- Model of `S.indexOf(quote, i)` where `quote` came from string indexing
and may be `undefined`; JavaScript then stringifies it to `"undefined"`. -/
def jsIndexOfOpt (S : JStr) (needle : Option Nat) (i : Int) : Int :=
  match needle with
  | some c => jsIndexOf S [c] i
  | none => jsIndexOf S (js "undefined") i

/-- JavaScript whitespace as used by `String.prototype.trim`. -/
def jsWhitespace (c : Nat) : Bool :=
  c = 9 || c = 10 || c = 11 || c = 12 || c = 13 || c = 32 || c = 160 ||
  c = 8232 || c = 8233 || c = 65279

/-- Model of `s.trim()`. -/
def jsTrim (s : JStr) : JStr :=
  ((s.dropWhile jsWhitespace).reverse.dropWhile jsWhitespace).reverse

/-- Value of a digit character in bases up to 36, as used by `parseInt`. -/
def digitVal (c : Nat) : Option Nat :=
  if 48 ≤ c ∧ c ≤ 57 then some (c - 48)
  else if 65 ≤ c ∧ c ≤ 90 then some (c - 55)
  else if 97 ≤ c ∧ c ≤ 122 then some (c - 87)
  else none

/-- Maximal leading run of digits valid in `radix`; `none` when there is
no digit at all. -/
def parseDigits (radix : Nat) : JStr → Option Nat → Option Nat
  | [], acc => acc
  | c :: rest, acc =>
    match digitVal c with
    | some d => if d < radix then parseDigits radix rest (some (acc.getD 0 * radix + d)) else acc
    | none => acc

/-- Model of `parseInt(s, radix)` for radix 10 and 16; `none` is `NaN`. -/
def jsParseInt (s : JStr) (radix : Nat) : Option Int :=
  let s1 := s.dropWhile jsWhitespace
  let signAndRest : Bool × JStr :=
    match s1 with
    | 43 :: r => (false, r)
    | 45 :: r => (true, r)
    | _ => (false, s1)
  let s2 := signAndRest.2
  let s3 :=
    if radix = 16 then
      match s2 with
      | 48 :: 120 :: r => r
      | 48 :: 88 :: r => r
      | _ => s2
    else s2
  match parseDigits radix s3 none with
  | none => none
  | some v => some (if signAndRest.1 then -(v : Int) else (v : Int))

/-- Model of `String.fromCharCode(n)`: the code is reduced modulo 2^16. -/
def fromCharCode (n : Int) : Nat := (n % 65536).toNat

/-- Decimal rendering of an integer, as JavaScript template literals do. -/
def intToUnits (i : Int) : JStr :=
  (if i < 0 then [45] else []) ++ (Nat.toDigits 10 i.natAbs).map Char.toNat

/-- The event kinds returned by `next()`. -/
inductive EventType
  | cdata | comment | doctype | endTag | eof | error
  | processingInstruction | singleTag | startTag | text
deriving DecidableEq, Repr

/-- The closure-captured mutable variables of one `tSax` instance. -/
structure TSaxState where
  pos : Int
  tagNameStart : Int
  tagNameEnd : Int
  tagEnd : Int
  textStart : Int
  textEnd : Int
  piTargetEnd : Int
  mightHaveAttributes : Bool
  textIsEscaped : Bool
  error : Option JStr
  entityCache : List (JStr × JStr)
deriving DecidableEq, Repr

/-- The pre-seeded entity cache with the five built-in XML entities. -/
def initEntityCache : List (JStr × JStr) :=
  [(js "lt", js "<"), (js "gt", js ">"), (js "amp", js "&"),
   (js "quot", js "\""), (js "apos", js "'")]

/-- The state of a freshly constructed parser. -/
def tSaxInit : TSaxState :=
  { pos := 0, tagNameStart := -1, tagNameEnd := -1, tagEnd := -1,
    textStart := -1, textEnd := -1, piTargetEnd := -1,
    mightHaveAttributes := false, textIsEscaped := false,
    error := none, entityCache := initEntityCache }

/-- The `while (pos > 0 && pos < errorPos)` loop of `humanReadablePos`.
State is `(lineNumber, pos, lineStartPos)`. -/
def hrLoop (S : JStr) (errorPos : Int) : Nat → Int × Int × Int → Int × Int × Int
  | 0, acc => acc
  | fuel+1, (lineNumber, p, lineStartPos) =>
    if 0 < p ∧ p < errorPos then
      hrLoop S errorPos fuel (lineNumber + 1, jsIndexOf S (js "\n") p, p)
    else (lineNumber, p, lineStartPos)

/-- Model of `humanReadablePos(errorPos)`. -/
def humanReadablePos (S : JStr) (errorPos : Int) : JStr :=
  let r := hrLoop S errorPos (S.length + 1) (0, 0, 0)
  intToUnits (r.1 + 1) ++ js ":" ++ intToUnits (errorPos - r.2.2 + 1)

/-- Model of `err(errorPos, message)`: records the diagnostic and returns
the `"error"` event. -/
def err (S : JStr) (st : TSaxState) (errorPos : Int) (message : JStr) :
    TSaxState × EventType :=
  ({ st with error := some (message ++ js " at " ++ humanReadablePos S errorPos) }, .error)

/-- Model of `unexpectedEOF(errorPos, scanningFor)`. -/
def unexpectedEOF (S : JStr) (st : TSaxState) (errorPos : Int) (scanningFor : JStr) :
    TSaxState × EventType :=
  err S st errorPos (js "Unexpected end of file while scanning for " ++ scanningFor)

/-- The `nameEndChars` char-code map: `" \t\n\r/>?["`. -/
def nameEndChars (c : Nat) : Bool :=
  c = 32 || c = 9 || c = 10 || c = 13 || c = 47 || c = 62 || c = 63 || c = 91

/-- The `quoteChars` char-code map: `"` and `'`. -/
def quoteChars (c : Nat) : Bool := c = 34 || c = 39

/-- The `attributeNameEndChars` char-code map: `=` and `>`. -/
def attributeNameEndChars (c : Nat) : Bool := c = 61 || c = 62

/-- Model of `posOfFirst(endChars)`: advances from `p` to the first
position whose char code is in `endChars`, stopping at end of input.
An out-of-range `charCodeAt` (`NaN`) indexes the map to `undefined`,
which is falsy. -/
def posOfFirst (S : JStr) (endChars : Nat → Bool) : Nat → Int → Int
  | 0, p => p
  | fuel+1, p =>
    if (match charCodeAt S p with | some c => endChars c | none => false) = false
        ∧ p < (S.length : Int) then
      posOfFirst S endChars fuel (p + 1)
    else p

/-- Model of `parseText(type, skip, skipEnd, end)`. -/
def parseText (S : JStr) (st : TSaxState) (type : EventType)
    (skip skipEnd : Int) (endStr : JStr) : TSaxState × EventType :=
  let textStart := st.pos + skip
  let textEnd := jsIndexOf S endStr textStart
  let st := { st with textStart := textStart, textEnd := textEnd, pos := textEnd + skipEnd }
  if 0 < textEnd then (st, type) else unexpectedEOF S st textStart endStr

/-- The backward whitespace trim of `parseEndTag`
(`while (S.charCodeAt(tagNameEnd - 1) <= spaceCC) tagNameEnd -= 1`;
`NaN <= 32` is false, so an out-of-range index stops the loop). -/
def trimLoop (S : JStr) : Nat → Int → Int
  | 0, e => e
  | fuel+1, e =>
    match charCodeAt S (e - 1) with
    | some c => if c ≤ 32 then trimLoop S fuel (e - 1) else e
    | none => e

/-- Model of `parseEndTag()`. -/
def parseEndTag (S : JStr) (st : TSaxState) : TSaxState × EventType :=
  let tagNameStart := st.pos + 2
  let tagNameEnd := jsIndexOf S (js ">") st.pos
  if tagNameEnd < 0 then
    unexpectedEOF S { st with tagNameStart := tagNameStart, tagNameEnd := tagNameEnd }
      tagNameStart (js "'>'")
  else
    ({ st with tagNameStart := tagNameStart, pos := tagNameEnd + 1,
               tagNameEnd := trimLoop S (S.length + 1) tagNameEnd }, .endTag)

/-- Model of `parseStartTag()`.  The cursor is left at `tagNameEnd` when the
closing `>` is missing (that is where `posOfFirst` stopped). -/
def parseStartTag (S : JStr) (st : TSaxState) : TSaxState × EventType :=
  let tagNameStart := st.pos + 1
  let tagNameEnd := posOfFirst S nameEndChars (S.length + 1) (st.pos + 2)
  let tagEnd := jsIndexOf S (js ">") tagNameEnd
  if tagEnd < 0 then
    unexpectedEOF S
      { st with tagNameStart := tagNameStart, tagNameEnd := tagNameEnd,
                tagEnd := tagEnd, pos := tagNameEnd } tagNameStart (js "'>'")
  else
    ({ st with tagNameStart := tagNameStart, tagNameEnd := tagNameEnd, tagEnd := tagEnd,
               pos := tagEnd + 1, mightHaveAttributes := true },
     if charCodeAt S (tagEnd - 1) = some 47 then .singleTag else .startTag)

/-- Model of `parseProcessingInstruction()`. -/
def parseProcessingInstruction (S : JStr) (st : TSaxState) : TSaxState × EventType :=
  let tagNameStart := st.pos + 2
  let piTargetEnd := posOfFirst S nameEndChars (S.length + 1) (st.pos + 3)
  let tagEnd := jsIndexOf S (js "?>") piTargetEnd
  if tagEnd < 0 then
    unexpectedEOF S
      { st with tagNameStart := tagNameStart, piTargetEnd := piTargetEnd,
                tagEnd := tagEnd, pos := piTargetEnd } tagNameStart (js "'?>'")
  else
    let textStart := piTargetEnd + 1
    ({ st with tagNameStart := tagNameStart, piTargetEnd := piTargetEnd, tagEnd := tagEnd,
               textStart := textStart,
               textEnd := if textStart ≤ tagEnd then tagEnd else textStart,
               pos := tagEnd + 2 }, .processingInstruction)

/-- The `switch (S[pos])` of the doctype loop body: a `<` immediately
followed by `?` hands control to the processing-instruction scanner,
saving and restoring `tagNameStart`/`tagNameEnd`; a plain `<` increments
and `>` decrements the bracket count. -/
def doctypeStep (S : JStr) (st : TSaxState) (bracketCount : Int) : TSaxState × Int :=
  if charCodeAt S st.pos = some 60 then
    if charCodeAt S (st.pos + 1) = some 63 then
      let b1 := st.tagNameStart
      let b2 := st.tagNameEnd
      let st' := (parseProcessingInstruction S st).1
      ({ st' with tagNameStart := b1, tagNameEnd := b2 }, bracketCount)
    else (st, bracketCount + 1)
  else if charCodeAt S st.pos = some 62 then (st, bracketCount - 1)
  else (st, bracketCount)

/-- The bracket-counting `do ... while` loop of `parseDoctype`; the
unconditional `pos += 1` of the loop body runs in every branch, also right
after a nested processing-instruction scan. -/
def doctypeLoop (S : JStr) : Nat → TSaxState → Int → TSaxState × Int
  | 0, st, bracketCount => (st, bracketCount)
  | fuel+1, st, bracketCount =>
    let r := doctypeStep S st bracketCount
    let st2 := { r.1 with pos := r.1.pos + 1 }
    if 0 < r.2 ∧ st2.pos < (S.length : Int) then doctypeLoop S fuel st2 r.2
    else (st2, r.2)

/-- Model of `parseDoctype()`. -/
def parseDoctype (S : JStr) (st : TSaxState) : TSaxState × EventType :=
  let tagNameStart := st.pos + 10
  let tagNameEnd := posOfFirst S nameEndChars (S.length + 1) (st.pos + 11)
  let st := { st with tagNameStart := tagNameStart, tagNameEnd := tagNameEnd, pos := tagNameEnd }
  let r := doctypeLoop S (S.length + 1) st 1
  let st := { r.1 with textStart := r.1.tagNameEnd, textEnd := r.1.pos - 1 }
  if r.2 = 0 then (st, .doctype) else unexpectedEOF S st st.textStart (js "doctype end")

/-- Model of `next()`: resets the per-event markers, dispatches on the
character at the cursor and returns the event kind. -/
def next (S : JStr) (st : TSaxState) : TSaxState × EventType :=
  let st := { st with tagNameEnd := -1, textEnd := -1, piTargetEnd := -1,
                      mightHaveAttributes := false, textIsEscaped := false }
  if charCodeAt S st.pos ≠ some 60 then
    let st := { st with textIsEscaped := true }
    let r := parseText S st .text 0 0 (js "<")
    (r.1, if r.2 = .error then .eof else .text)
  else if charCodeAt S (st.pos + 1) = some 47 then parseEndTag S st
  else if charCodeAt S (st.pos + 1) = some 63 then parseProcessingInstruction S st
  else if charCodeAt S (st.pos + 1) = some 33 then
    if charCodeAt S (st.pos + 2) = some 45 then parseText S st .comment 4 3 (js "-->")
    else if charCodeAt S (st.pos + 2) = some 91 then parseText S st .cdata 9 3 (js "]]>")
    else if charCodeAt S (st.pos + 2) = some 68 then parseDoctype S st
    else err S st st.pos (js "Unexpected character sequence " ++ jsSubstring S st.pos (st.pos + 3))
  else
    let st := { st with textIsEscaped := true }
    parseStartTag S st

/-- Model of the `tagName()` accessor. -/
def tagName (S : JStr) (st : TSaxState) : Option JStr :=
  if 0 < st.tagNameEnd then some (jsSubstring S st.tagNameStart st.tagNameEnd) else none

/-- Model of the `piTarget()` accessor. -/
def piTarget (S : JStr) (st : TSaxState) : Option JStr :=
  if 0 < st.piTargetEnd then some (jsSubstring S st.tagNameStart st.piTargetEnd) else none

/-- Model of the `error()` accessor. -/
def errorMessage (st : TSaxState) : Option JStr := st.error

/-- Lookup in the entity cache (`entityCache[entity]`). -/
def cacheLookup (cache : List (JStr × JStr)) (k : JStr) : Option JStr :=
  (cache.find? (fun p => p.1 == k)).map (fun p => p.2)

/-- Model of `cacheEntity(entity)`: numeric entity resolution.  A reference
whose second character is `x` is parsed as hexadecimal after the first two
characters, otherwise as decimal after the first character; `NaN` yields
`undefined` (`none`). -/
def cacheEntity (st : TSaxState) (entity : JStr) : TSaxState × Option JStr :=
  let isHex := charCodeAt entity 1 = some 120
  let charCode :=
    if isHex then jsParseInt (jsSubstring entity 2 (entity.length : Int)) 16
    else jsParseInt (jsSubstring entity 1 (entity.length : Int)) 10
  match charCode with
  | none => (st, none)
  | some code =>
    let ch : JStr := [fromCharCode code]
    ({ st with entityCache := st.entityCache ++ [(entity, ch)] }, some ch)

/-- The `while (ampIndex >= 0)` loop of `unescapeText`.  The source loop can
run forever (the missing-semicolon branch records a diagnostic but does not
return), so the model takes fuel and returns `none` on exhaustion. -/
def unescapeLoop (S : JStr) (rawText : JStr) :
    Nat → TSaxState → Int → Int → JStr → Option (TSaxState × Option JStr)
  | 0, _, _, _, _ => none
  | fuel+1, st, ampIndex, semicolonIndex, text =>
    if 0 ≤ ampIndex then
      let text := text ++ jsSubstring rawText (semicolonIndex + 1) ampIndex
      let semicolonIndex := jsIndexOf rawText (js ";") (ampIndex + 2)
      let st := if semicolonIndex < 0 then
          (err S st (st.textStart + ampIndex + 2) (js "Missing semicolon")).1
        else st
      let entity := jsSubstring rawText (ampIndex + 1) semicolonIndex
      let resolvedPair :=
        match cacheLookup st.entityCache entity with
        | some r => (st, some r)
        | none => cacheEntity st entity
      match resolvedPair.2 with
      | none =>
        some ((err S resolvedPair.1 (resolvedPair.1.textStart + semicolonIndex)
          (js "Unresolveable entity \"" ++ entity ++ js "\"")).1, none)
      | some resolved =>
        unescapeLoop S rawText fuel resolvedPair.1
          (jsIndexOf rawText (js "&") (semicolonIndex + 1)) semicolonIndex (text ++ resolved)
    else some (st, some (text ++ jsSubstring rawText (semicolonIndex + 1) (rawText.length : Int)))

/-- Model of `unescapeText(rawText)`: `some (st, none)` is the `undefined`
return, the outer `none` is divergence of the source loop. -/
def unescapeText (S : JStr) (fuel : Nat) (st : TSaxState) (rawText : JStr) :
    Option (TSaxState × Option JStr) :=
  let ampIndex := if rawText ≠ [] then jsIndexOf rawText (js "&") 0 else -1
  if rawText = [] ∨ ampIndex < 0 then some (st, some rawText)
  else unescapeLoop S rawText fuel st ampIndex (-1) []

/-- Model of the `text(raw)` accessor. -/
def text (S : JStr) (fuel : Nat) (st : TSaxState) (raw : Bool) :
    Option (TSaxState × Option JStr) :=
  if st.textEnd < 0 then some (st, none)
  else
    let rawText := jsSubstring S st.textStart st.textEnd
    if raw = true ∨ st.textIsEscaped = false then some (st, some rawText)
    else unescapeText S fuel st rawText

/-- The three possible results of `attributes()`. -/
inductive AttrResult
  | attrs (l : List (JStr × JStr))
  | undef
  | errorMarker
deriving DecidableEq, Repr

/-- Assignment to a JavaScript object property: an existing key is
overwritten in place, a new key is appended. -/
def attrInsert (l : List (JStr × JStr)) (k v : JStr) : List (JStr × JStr) :=
  if l.any (fun p => p.1 == k) then l.map (fun p => if p.1 == k then (k, v) else p)
  else l ++ [(k, v)]

/-- One iteration of the `while (true)` loop of `attributes(raw)`; `rec`
is the continuation for the next iteration and `fuel` bounds the nested
entity resolution. -/
def attributesBody (S : JStr) (raw : Bool) (fuel : Nat)
    (rec : TSaxState → List (JStr × JStr) → Option (TSaxState × AttrResult))
    (st : TSaxState) (attributes : List (JStr × JStr)) :
    Option (TSaxState × AttrResult) :=
  let attributeStart := st.pos + 1
  let p := posOfFirst S attributeNameEndChars (S.length + 1) st.pos
  let st := { st with pos := p }
  if charCodeAt S p = some 62 then
    some ({ st with pos := st.pos + 1 }, .attrs attributes)
  else
    let attributeName := jsTrim (jsSubstring S attributeStart st.pos)
    let q := posOfFirst S quoteChars (S.length + 1) st.pos
    let st := { st with pos := q }
    let valueStart := q + 1
    let quote := charCodeAt S (valueStart - 1)
    let valueEnd := jsIndexOfOpt S quote valueStart
    if (S.length : Int) ≤ st.pos then
      some ((unexpectedEOF S st attributeStart (js "attribute delimiters")).1, .errorMarker)
    else
      let rawValue := jsSubstring S valueStart valueEnd
      if raw = true then
        rec { st with pos := valueEnd + 1 } (attrInsert attributes attributeName rawValue)
      else
        match unescapeText S fuel st rawValue with
        | none => none
        | some r =>
          match r.2 with
          | none => some (r.1, .undef)
          | some value =>
            rec { r.1 with pos := valueEnd + 1 } (attrInsert attributes attributeName value)

/-- The `while (true)` loop of `attributes(raw)`.  The source loop can run
forever (a found opening quote with no closing quote before a `-1`
`indexOf` result rewinds the cursor), so the model takes fuel and returns
`none` on exhaustion. -/
def attributesLoop (S : JStr) (raw : Bool) :
    Nat → TSaxState → List (JStr × JStr) → Option (TSaxState × AttrResult)
  | 0, _, _ => none
  | fuel+1, st, attributes =>
    attributesBody S raw fuel (attributesLoop S raw fuel) st attributes

/-- Model of the `attributes(raw)` accessor. -/
def attributes (S : JStr) (fuel : Nat) (st : TSaxState) (raw : Bool) :
    Option (TSaxState × AttrResult) :=
  if st.mightHaveAttributes = false then some (st, .undef)
  else if st.tagEnd - st.tagNameEnd < 5 then some (st, .attrs [])
  else attributesLoop S raw fuel { st with pos := st.tagNameEnd } []

/-! ### Specification models

The following definitions follow the words of the specification (not the
source); they exist to compare the source's behaviour against the spec's
description. -/

/-- The cursor position after the processing-instruction scanner has run
from a `<?` at position `p` (target name to the first name-end character,
then the first `?>`; when `?>` is missing the scan stops at the target
end). -/
def piAdvance (S : JStr) (p : Int) : Int :=
  let pte := posOfFirst S nameEndChars (S.length + 1) (p + 3)
  let te := jsIndexOf S (js "?>") pte
  if te < 0 then pte else te + 2

/-- Modelled from the spec: the doctype scanner's depth count.  Starting at
position `p` with the given `depth`, scan character by character: `<`
increments the depth, `>` decrements it, except that a `<` immediately
followed by `?` transfers control to the processing-instruction scanner,
whose consumed characters do not affect the count.  `skipAfterPI = false`
follows the claim's words exactly (only the PI itself is skipped);
`skipAfterPI = true` additionally skips the single character immediately
following the consumed PI.  Returns `true` exactly when the depth reaches
zero, `false` when the input (or the fuel) ends first. -/
def doctypeDepthReachesZero (S : JStr) (skipAfterPI : Bool) : Nat → Int → Int → Bool
  | 0, _, _ => false
  | fuel+1, p, depth =>
    if depth = 0 then true
    else if (S.length : Int) ≤ p then false
    else if charCodeAt S p = some 60 then
      if charCodeAt S (p + 1) = some 63 then
        doctypeDepthReachesZero S skipAfterPI fuel
          (piAdvance S p + (if skipAfterPI then 1 else 0)) depth
      else doctypeDepthReachesZero S skipAfterPI fuel (p + 1) (depth + 1)
    else if charCodeAt S p = some 62 then
      doctypeDepthReachesZero S skipAfterPI fuel (p + 1) (depth - 1)
    else doctypeDepthReachesZero S skipAfterPI fuel (p + 1) depth

/-- Modelled from the spec: the number of newline characters strictly
before offset `p`. -/
def newlinesBefore (S : JStr) (p : Nat) : Nat :=
  ((S.take p).filter (fun c => c = 10)).length

/-- Modelled from the spec: the position of the newline preceding
offset `p` (the largest newline index strictly before `p`). -/
def newlineBefore (S : JStr) (p : Nat) : Option Nat :=
  ((List.range p).filter (fun i => S[i]? == some 10)).getLast?

/-! ### Concrete documents used by the claims -/

/-- A self-closing tag with an attribute whose value holds an
unresolvable entity. -/
def ex1S : JStr := js "<a b=\"&bad;\"/>"

/-- The doctype-with-embedded-PI document from the repository's tests. -/
def ex2S : JStr := js "<!DOCTYPE foo:bar[<?baz >>><<<<?>]>"

/-- A text node holding an entity reference with no closing semicolon
whose accidental prefix entity parses to a number. -/
def ex3S : JStr := js "a1&b<"

/-- A start tag whose attribute value has an opening quote but no closing
quote before the end of the input. -/
def ex4S : JStr := js "<a b='c\">"

/-- A document whose parse error lies on the second line. -/
def ex5S : JStr := js "a\n<!x"

/-- A doctype whose internal subset ends with `>` right after an embedded
processing instruction. -/
def ex6S : JStr := js "<!DOCTYPE a[<?p?>>]"

/-- An unterminated doctype. -/
def ex6eofS : JStr := js "<!DOCTYPE a["

/-- A self-closing tag followed by trailing whitespace. -/
def ex7S : JStr := js "<a/> "

/-- A well-formed self-closing tag with one attribute. -/
def ex7okS : JStr := js "<bar foo='baz'/>"

/-- A start tag whose attribute value contains `>` (legal XML), so the
tag-end scan stops inside the value. -/
def ex7gtS : JStr := js "<a b=\"c>d\"/>"

/-! ### Scan-primitive lemmas -/

theorem posOfFirst_ge (S : JStr) (ec : Nat → Bool) :
    ∀ (fuel : Nat) (p : Int), p ≤ posOfFirst S ec fuel p := by
  intro fuel
  induction fuel with
  | zero => intro p; exact le_refl p
  | succ n ih =>
    intro p
    simp only [posOfFirst]
    split
    · exact le_trans (by omega) (ih (p + 1))
    · exact le_refl p

theorem occursAt_lt_length {S needle : JStr} {j : Nat} (hne : needle ≠ [])
    (h : occursAt S needle j = true) : j < S.length := by
  have hp : needle <+: S.drop j := List.isPrefixOf_iff_prefix.mp h
  have hlen := hp.length_le
  rw [List.length_drop] at hlen
  have hpos : 0 < needle.length := List.length_pos.mpr hne
  omega

theorem occursAt_single {S : JStr} {c : Nat} {j : Nat}
    (h : occursAt S [c] j = true) : S[j]? = some c := by
  have hp : [c] <+: S.drop j := List.isPrefixOf_iff_prefix.mp h
  obtain ⟨t, ht⟩ := hp
  have h0 : (S.drop j)[0]? = some c := by rw [← ht]; simp
  rw [List.getElem?_drop] at h0
  simpa using h0

theorem le_of_found {S needle : JStr} {i : Int} {j : Nat} (hne : needle ≠ [])
    (hsj : (max 0 (min i (S.length : Int))).toNat ≤ j)
    (hocc : occursAt S needle j = true) : i ≤ (j : Int) := by
  have hjlt := occursAt_lt_length hne hocc
  have hs : (((max 0 (min i (S.length : Int))).toNat : Nat) : Int)
      = max 0 (min i (S.length : Int)) :=
    Int.toNat_of_nonneg (le_max_left 0 _)
  rcases le_or_lt i (S.length : Int) with hc | hc
  · rcases le_or_lt 0 i with h0 | h0
    · rw [min_eq_left hc, max_eq_right h0] at hs
      omega
    · omega
  · rw [min_eq_right (le_of_lt hc), max_eq_right (by positivity)] at hs
    omega

theorem jsIndexOf_found_ge (S needle : JStr) (i : Int) (hne : needle ≠ [])
    (h : 0 ≤ jsIndexOf S needle i) : i ≤ jsIndexOf S needle i := by
  unfold jsIndexOf at h ⊢
  cases hfind : (List.range (S.length + 1)).find?
      (fun j => decide ((max 0 (min i (S.length : Int))).toNat ≤ j) && occursAt S needle j) with
  | none => rw [hfind] at h; exact absurd h (by decide)
  | some j =>
    have hpred := List.find?_some hfind
    simp only [Bool.and_eq_true, decide_eq_true_eq] at hpred
    exact le_of_found hne hpred.1 hpred.2

theorem jsIndexOf_cases (S needle : JStr) (i : Int) :
    jsIndexOf S needle i = -1 ∨ 0 ≤ jsIndexOf S needle i := by
  unfold jsIndexOf
  cases hfind : (List.range (S.length + 1)).find?
      (fun j => decide ((max 0 (min i (S.length : Int))).toNat ≤ j) && occursAt S needle j) with
  | none => exact Or.inl rfl
  | some j => exact Or.inr (Int.ofNat_nonneg j)

theorem jsIndexOf_single_none {S : JStr} {c : Nat} {i : Int}
    (h : ∀ j : Nat, i ≤ (j : Int) → S[j]? ≠ some c) : jsIndexOf S [c] i = -1 := by
  unfold jsIndexOf
  cases hfind : (List.range (S.length + 1)).find?
      (fun j => decide ((max 0 (min i (S.length : Int))).toNat ≤ j) && occursAt S [c] j) with
  | none => rfl
  | some j =>
    exfalso
    have hpred := List.find?_some hfind
    simp only [Bool.and_eq_true, decide_eq_true_eq] at hpred
    exact h j (le_of_found (by simp) hpred.1 hpred.2) (occursAt_single hpred.2)

/-! ### Error-stickiness lemmas: `err` is the only writer of the error
field and it always writes `some`; every operation either keeps the field
or goes through `err`. -/

theorem err_error_isSome (S : JStr) (st : TSaxState) (p : Int) (m : JStr) :
    ((err S st p m).1).error.isSome = true := rfl

theorem parseText_error_mono {S : JStr} {st : TSaxState} {ty : EventType}
    {a b : Int} {e : JStr} (h : st.error.isSome = true) :
    ((parseText S st ty a b e).1).error.isSome = true := by
  simp only [parseText]
  split
  · exact h
  · exact rfl

theorem parseEndTag_error_mono {S : JStr} {st : TSaxState}
    (h : st.error.isSome = true) : ((parseEndTag S st).1).error.isSome = true := by
  simp only [parseEndTag]
  split
  · exact rfl
  · exact h

theorem parseStartTag_error_mono {S : JStr} {st : TSaxState}
    (h : st.error.isSome = true) : ((parseStartTag S st).1).error.isSome = true := by
  simp only [parseStartTag]
  split
  · exact rfl
  · exact h

theorem parsePI_error_mono {S : JStr} {st : TSaxState}
    (h : st.error.isSome = true) :
    ((parseProcessingInstruction S st).1).error.isSome = true := by
  simp only [parseProcessingInstruction]
  split
  · exact rfl
  · exact h

theorem doctypeStep_error_mono {S : JStr} {st : TSaxState} {bc : Int}
    (h : st.error.isSome = true) :
    ((doctypeStep S st bc).1).error.isSome = true := by
  simp only [doctypeStep]
  split
  · split
    · exact parsePI_error_mono h
    · exact h
  · split
    · exact h
    · exact h

theorem doctypeLoop_error_mono (S : JStr) :
    ∀ (fuel : Nat) (st : TSaxState) (bc : Int), st.error.isSome = true →
      ((doctypeLoop S fuel st bc).1).error.isSome = true := by
  intro fuel
  induction fuel with
  | zero => intro st bc h; exact h
  | succ n ih =>
    intro st bc h
    simp only [doctypeLoop]
    split
    · exact ih _ _ (doctypeStep_error_mono h)
    · exact doctypeStep_error_mono h

theorem parseDoctype_error_mono {S : JStr} {st : TSaxState}
    (h : st.error.isSome = true) : ((parseDoctype S st).1).error.isSome = true := by
  simp only [parseDoctype]
  split
  · exact doctypeLoop_error_mono S _ _ _ h
  · exact rfl

theorem next_error_mono {S : JStr} {st : TSaxState}
    (h : st.error.isSome = true) : ((next S st).1).error.isSome = true := by
  simp only [next]
  split
  · exact parseText_error_mono h
  · split
    · exact parseEndTag_error_mono h
    · split
      · exact parsePI_error_mono h
      · split
        · split
          · exact parseText_error_mono h
          · split
            · exact parseText_error_mono h
            · split
              · exact parseDoctype_error_mono h
              · exact rfl
        · exact parseStartTag_error_mono h

theorem cacheEntity_error_mono {st : TSaxState} {e : JStr}
    (h : st.error.isSome = true) : ((cacheEntity st e).1).error.isSome = true := by
  simp only [cacheEntity]
  split
  · exact h
  · exact h

theorem unescapeLoop_error_mono (S rawText : JStr) :
    ∀ (fuel : Nat) (st : TSaxState) (a b : Int) (acc : JStr)
      (p : TSaxState × Option JStr), st.error.isSome = true →
      unescapeLoop S rawText fuel st a b acc = some p →
      p.1.error.isSome = true := by
  intro fuel
  induction fuel with
  | zero => intro st a b acc p _ h; exact absurd h (by simp [unescapeLoop])
  | succ n ih =>
    intro st a b acc p hsome h
    simp only [unescapeLoop] at h
    by_cases ha : 0 ≤ a
    · rw [if_pos ha] at h
      set semi := jsIndexOf rawText (js ";") (a + 2) with hsemi
      set st1 := (if semi < 0 then
          (err S st (st.textStart + a + 2) (js "Missing semicolon")).1
          else st) with hst1
      have h1 : st1.error.isSome = true := by
        rw [hst1]
        split
        · exact rfl
        · exact hsome
      set entity := jsSubstring rawText (a + 1) semi with hent
      set rp := (match cacheLookup st1.entityCache entity with
        | some r => (st1, some r)
        | none => cacheEntity st1 entity) with hrp
      have h2 : rp.1.error.isSome = true := by
        rw [hrp]
        rcases cacheLookup st1.entityCache entity with _ | r
        · exact cacheEntity_error_mono h1
        · exact h1
      rcases hr2 : rp.2 with _ | resolved
      · rw [hr2] at h
        simp only [Option.some_inj] at h
        rw [← h]
        exact rfl
      · rw [hr2] at h
        simp only [] at h
        exact ih _ _ _ _ p h2 h
    · rw [if_neg ha, Option.some_inj] at h
      rw [← h]
      exact hsome

theorem unescapeText_error_mono {S : JStr} {fuel : Nat} {st : TSaxState}
    {rawText : JStr} {p : TSaxState × Option JStr}
    (h : unescapeText S fuel st rawText = some p) (hsome : st.error.isSome = true) :
    p.1.error.isSome = true := by
  simp only [unescapeText] at h
  revert h
  split <;> split
  · intro h
    rw [Option.some_inj] at h
    rw [← h]
    exact hsome
  · intro h
    exact unescapeLoop_error_mono S rawText fuel st _ _ [] p hsome h
  · intro h
    rw [Option.some_inj] at h
    rw [← h]
    exact hsome
  · next hcond =>
    intro h
    exact absurd (Or.inr (by norm_num)) hcond

theorem text_error_mono {S : JStr} {fuel : Nat} {st : TSaxState} {raw : Bool}
    {p : TSaxState × Option JStr}
    (h : text S fuel st raw = some p) (hsome : st.error.isSome = true) :
    p.1.error.isSome = true := by
  simp only [text] at h
  revert h
  split
  · intro h; rw [Option.some_inj] at h; rw [← h]; exact hsome
  · split
    · intro h; rw [Option.some_inj] at h; rw [← h]; exact hsome
    · intro h; exact unescapeText_error_mono h hsome

theorem attributesLoop_error_mono (S : JStr) (raw : Bool) :
    ∀ (fuel : Nat) (st : TSaxState) (l : List (JStr × JStr))
      (p : TSaxState × AttrResult), st.error.isSome = true →
      attributesLoop S raw fuel st l = some p → p.1.error.isSome = true := by
  intro fuel
  induction fuel with
  | zero => intro st l p _ h; exact Option.noConfusion h
  | succ n ih =>
    intro st l p hsome h
    simp only [attributesLoop, attributesBody] at h
    revert h
    split
    · intro h; rw [Option.some_inj] at h; rw [← h]; exact hsome
    · split
      · intro h; rw [Option.some_inj] at h; rw [← h]; exact rfl
      · split
        · intro h
          refine ih _ _ p ?_ h
          exact hsome
        · split
          · intro h; exact absurd h (by simp)
          · next r hequ =>
            split
            · intro h
              rw [Option.some_inj] at h
              rw [← h]
              exact unescapeText_error_mono hequ hsome
            · intro h
              refine ih _ _ p ?_ h
              exact unescapeText_error_mono hequ hsome

theorem attributes_error_mono {S : JStr} {fuel : Nat} {st : TSaxState}
    {raw : Bool} {p : TSaxState × AttrResult}
    (h : attributes S fuel st raw = some p) (hsome : st.error.isSome = true) :
    p.1.error.isSome = true := by
  simp only [attributes] at h
  revert h
  split
  · intro h; rw [Option.some_inj] at h; rw [← h]; exact hsome
  · split
    · intro h; rw [Option.some_inj] at h; rw [← h]; exact hsome
    · intro h
      refine attributesLoop_error_mono S raw fuel _ _ p ?_ h
      exact hsome

theorem parseText_error_state {S : JStr} {st : TSaxState} {ty : EventType}
    {a b : Int} {e : JStr} (h : (parseText S st ty a b e).2 = .error)
    (hty : ty ≠ .error) : ((parseText S st ty a b e).1).error.isSome = true := by
  simp only [parseText] at h ⊢
  revert h
  split
  · intro h; exact absurd h hty
  · intro _; exact rfl

theorem textBranch_eof {S : JStr} {st : TSaxState} {e : JStr}
    (h : (if (parseText S st .text 0 0 e).2 = EventType.error then EventType.eof
          else EventType.text) = EventType.eof) :
    ((parseText S st .text 0 0 e).1).error.isSome = true := by
  by_cases hc : (parseText S st .text 0 0 e).2 = EventType.error
  · exact parseText_error_state hc (by simp)
  · rw [if_neg hc] at h; exact absurd h (by simp)

theorem parseText_ne_eof {S : JStr} {st : TSaxState} {ty : EventType}
    {a b : Int} {e : JStr} (hty : ty ≠ .eof) :
    (parseText S st ty a b e).2 ≠ .eof := by
  simp only [parseText]
  split
  · exact hty
  · simp [unexpectedEOF, err]

theorem parseEndTag_ne_eof {S : JStr} {st : TSaxState} :
    (parseEndTag S st).2 ≠ .eof := by
  simp only [parseEndTag]
  split
  · simp [unexpectedEOF, err]
  · simp

theorem parseStartTag_ne_eof {S : JStr} {st : TSaxState} :
    (parseStartTag S st).2 ≠ .eof := by
  simp only [parseStartTag]
  split
  · simp [unexpectedEOF, err]
  · split <;> simp

theorem parsePI_ne_eof {S : JStr} {st : TSaxState} :
    (parseProcessingInstruction S st).2 ≠ .eof := by
  simp only [parseProcessingInstruction]
  split
  · simp [unexpectedEOF, err]
  · simp

theorem parseDoctype_ne_eof {S : JStr} {st : TSaxState} :
    (parseDoctype S st).2 ≠ .eof := by
  simp only [parseDoctype]
  split
  · simp
  · simp [unexpectedEOF, err]

theorem next_eof_error {S : JStr} {st : TSaxState} (h : (next S st).2 = .eof) :
    ((next S st).1).error.isSome = true := by
  simp only [next] at h ⊢
  revert h
  split
  · intro h
    exact textBranch_eof h
  · split
    · intro h; exact absurd h parseEndTag_ne_eof
    · split
      · intro h; exact absurd h parsePI_ne_eof
      · split
        · split
          · intro h; exact absurd h (parseText_ne_eof (by simp))
          · split
            · intro h; exact absurd h (parseText_ne_eof (by simp))
            · split
              · intro h; exact absurd h parseDoctype_ne_eof
              · intro h; exact absurd h (by simp [err])
        · intro h; exact absurd h parseStartTag_ne_eof

/-! ### Cursor-monotonicity lemmas -/

theorem parsePI_pos_eq (S : JStr) (st : TSaxState) :
    ((parseProcessingInstruction S st).1).pos = piAdvance S st.pos := by
  simp only [parseProcessingInstruction, piAdvance]
  split <;> rfl

theorem piAdvance_ge (S : JStr) (p : Int) : p ≤ piAdvance S p := by
  have h1 : p + 3 ≤ posOfFirst S nameEndChars (S.length + 1) (p + 3) :=
    posOfFirst_ge S nameEndChars (S.length + 1) (p + 3)
  simp only [piAdvance]
  split
  · omega
  · next h =>
    have h2 := jsIndexOf_found_ge S (js "?>")
      (posOfFirst S nameEndChars (S.length + 1) (p + 3)) (by decide) (by omega)
    omega

theorem parsePI_pos_ge (S : JStr) (st : TSaxState) :
    st.pos ≤ ((parseProcessingInstruction S st).1).pos := by
  rw [parsePI_pos_eq]
  exact piAdvance_ge S st.pos

theorem doctypeStep_pos_ge (S : JStr) (st : TSaxState) (bc : Int) :
    st.pos ≤ ((doctypeStep S st bc).1).pos := by
  simp only [doctypeStep]
  split
  · split
    · exact parsePI_pos_ge S st
    · exact le_refl _
  · split
    · exact le_refl _
    · exact le_refl _

theorem doctypeLoop_pos_ge (S : JStr) :
    ∀ (fuel : Nat) (st : TSaxState) (bc : Int),
      st.pos ≤ ((doctypeLoop S fuel st bc).1).pos := by
  intro fuel
  induction fuel with
  | zero => intro st bc; exact le_refl _
  | succ n ih =>
    intro st bc
    have hstep := doctypeStep_pos_ge S st bc
    simp only [doctypeLoop]
    split
    · refine le_trans ?_ (ih _ _)
      show st.pos ≤ (doctypeStep S st bc).1.pos + 1
      omega
    · show st.pos ≤ (doctypeStep S st bc).1.pos + 1
      omega

theorem parseText_pos_ge {S : JStr} {st : TSaxState} {ty : EventType}
    {skip skipEnd : Int} {e : JStr} (hskip : 0 ≤ skip) (hskipEnd : 0 ≤ skipEnd)
    (he : e ≠ []) (hev : (parseText S st ty skip skipEnd e).2 ≠ .error) :
    st.pos ≤ ((parseText S st ty skip skipEnd e).1).pos := by
  simp only [parseText] at hev ⊢
  revert hev
  split
  · next h =>
    intro _
    have h2 := jsIndexOf_found_ge S e (st.pos + skip) he (by omega)
    show st.pos ≤ jsIndexOf S e (st.pos + skip) + skipEnd
    omega
  · intro hev
    exact absurd (by simp [unexpectedEOF, err]) hev

theorem parseEndTag_pos_ge {S : JStr} {st : TSaxState}
    (hev : (parseEndTag S st).2 ≠ .error) :
    st.pos ≤ ((parseEndTag S st).1).pos := by
  simp only [parseEndTag] at hev ⊢
  revert hev
  split
  · intro hev
    exact absurd (by simp [unexpectedEOF, err]) hev
  · next h =>
    intro _
    have h2 := jsIndexOf_found_ge S (js ">") st.pos (by decide) (by omega)
    show st.pos ≤ jsIndexOf S (js ">") st.pos + 1
    omega

theorem parseStartTag_pos_ge {S : JStr} {st : TSaxState}
    (hev : (parseStartTag S st).2 ≠ .error) :
    st.pos ≤ ((parseStartTag S st).1).pos := by
  simp only [parseStartTag] at hev ⊢
  revert hev
  split
  · intro hev
    exact absurd (by simp [unexpectedEOF, err]) hev
  · next h =>
    intro _
    have h1 : st.pos + 2 ≤ posOfFirst S nameEndChars (S.length + 1) (st.pos + 2) :=
      posOfFirst_ge S nameEndChars (S.length + 1) (st.pos + 2)
    have h2 := jsIndexOf_found_ge S (js ">")
      (posOfFirst S nameEndChars (S.length + 1) (st.pos + 2)) (by decide) (by omega)
    show st.pos ≤ jsIndexOf S (js ">")
      (posOfFirst S nameEndChars (S.length + 1) (st.pos + 2)) + 1
    omega

theorem parseDoctype_pos_ge (S : JStr) (st : TSaxState) :
    st.pos ≤ ((parseDoctype S st).1).pos := by
  have h1 : st.pos + 11 ≤ posOfFirst S nameEndChars (S.length + 1) (st.pos + 11) :=
    posOfFirst_ge S nameEndChars (S.length + 1) (st.pos + 11)
  have h2 : posOfFirst S nameEndChars (S.length + 1) (st.pos + 11) ≤
      ((doctypeLoop S (S.length + 1)
        { st with tagNameStart := st.pos + 10,
                  tagNameEnd := posOfFirst S nameEndChars (S.length + 1) (st.pos + 11),
                  pos := posOfFirst S nameEndChars (S.length + 1) (st.pos + 11) } 1).1).pos :=
    doctypeLoop_pos_ge S (S.length + 1) _ 1
  simp only [parseDoctype]
  split
  · show st.pos ≤ ((doctypeLoop S (S.length + 1)
      { st with tagNameStart := st.pos + 10,
                tagNameEnd := posOfFirst S nameEndChars (S.length + 1) (st.pos + 11),
                pos := posOfFirst S nameEndChars (S.length + 1) (st.pos + 11) } 1).1).pos
    omega
  · show st.pos ≤ ((doctypeLoop S (S.length + 1)
      { st with tagNameStart := st.pos + 10,
                tagNameEnd := posOfFirst S nameEndChars (S.length + 1) (st.pos + 11),
                pos := posOfFirst S nameEndChars (S.length + 1) (st.pos + 11) } 1).1).pos
    omega

theorem textBranch_pos {S : JStr} {st : TSaxState}
    (hf : (if (parseText S st .text 0 0 (js "<")).2 = EventType.error then EventType.eof
           else EventType.text) ≠ EventType.eof) :
    st.pos ≤ ((parseText S st .text 0 0 (js "<")).1).pos := by
  by_cases hc : (parseText S st .text 0 0 (js "<")).2 = EventType.error
  · rw [if_pos hc] at hf
    exact absurd rfl hf
  · exact parseText_pos_ge (by omega) (by omega) (by decide) hc

theorem next_pos_ge {S : JStr} {st : TSaxState}
    (he : (next S st).2 ≠ .error) (hf : (next S st).2 ≠ .eof) :
    st.pos ≤ ((next S st).1).pos := by
  simp only [next] at he hf ⊢
  revert he hf
  split
  · intro _ hf
    exact textBranch_pos hf
  · split
    · intro he _
      exact parseEndTag_pos_ge he
    · split
      · intro _ _
        exact parsePI_pos_ge S _
      · split
        · split
          · intro he _
            exact parseText_pos_ge (by omega) (by omega) (by decide) he
          · split
            · intro he _
              exact parseText_pos_ge (by omega) (by omega) (by decide) he
            · split
              · intro _ _
                exact parseDoctype_pos_ge S _
              · intro he _
                exact absurd rfl he
        · intro he _
          exact parseStartTag_pos_ge he

theorem attributesLoop_attrs_pos (S : JStr) (raw : Bool) :
    ∀ (fuel : Nat) (st st' : TSaxState) (l l' : List (JStr × JStr)),
      attributesLoop S raw fuel st l = some (st', .attrs l') →
      ∃ q : Int, charCodeAt S q = some 62 ∧ st'.pos = q + 1 := by
  intro fuel
  induction fuel with
  | zero => intro st st' l l' h; exact Option.noConfusion h
  | succ n ih =>
    intro st st' l l' h
    simp only [attributesLoop, attributesBody] at h
    revert h
    split
    · next h62 =>
      intro h
      simp only [Option.some_inj, Prod.mk.injEq] at h
      refine ⟨posOfFirst S attributeNameEndChars (S.length + 1) st.pos, h62, ?_⟩
      rw [← h.1]
    · split
      · intro h
        simp only [Option.some_inj, Prod.mk.injEq] at h
        exact absurd h.2 (by simp)
      · split
        · intro h
          exact ih _ _ _ _ h
        · split
          · intro h
            exact Option.noConfusion h
          · split
            · intro h
              simp only [Option.some_inj, Prod.mk.injEq] at h
              exact absurd h.2 (by simp)
            · intro h
              exact ih _ _ _ _ h

/-! ### Doctype depth-count equivalence lemmas -/

theorem charCodeAt_none_of_ge {S : JStr} {p : Int} (h : (S.length : Int) ≤ p) :
    charCodeAt S p = none := by
  simp only [charCodeAt]
  rw [if_pos (by omega : (0:Int) ≤ p)]
  apply List.getElem?_eq_none
  omega

theorem dtScan_succ_true (S : JStr) (n : Nat) (p d : Int) :
    doctypeDepthReachesZero S true (n+1) p d =
      if d = 0 then true
      else if (S.length : Int) ≤ p then false
      else if charCodeAt S p = some 60 then
        if charCodeAt S (p + 1) = some 63 then
          doctypeDepthReachesZero S true n (piAdvance S p + 1) d
        else doctypeDepthReachesZero S true n (p + 1) (d + 1)
      else if charCodeAt S p = some 62 then
        doctypeDepthReachesZero S true n (p + 1) (d - 1)
      else doctypeDepthReachesZero S true n (p + 1) d := rfl

theorem doctypeLoop_succ (S : JStr) (n : Nat) (st : TSaxState) (bc : Int) :
    doctypeLoop S (n+1) st bc =
      if 0 < (doctypeStep S st bc).2 ∧
          ((doctypeStep S st bc).1).pos + 1 < (S.length : Int) then
        doctypeLoop S n
          { (doctypeStep S st bc).1 with pos := ((doctypeStep S st bc).1).pos + 1 }
          (doctypeStep S st bc).2
      else ({ (doctypeStep S st bc).1 with pos := ((doctypeStep S st bc).1).pos + 1 },
        (doctypeStep S st bc).2) := rfl

theorem doctypeStep_eq (S : JStr) (st : TSaxState) (bc : Int) :
    doctypeStep S st bc =
      if charCodeAt S st.pos = some 60 then
        if charCodeAt S (st.pos + 1) = some 63 then
          ({ (parseProcessingInstruction S st).1 with
              tagNameStart := st.tagNameStart, tagNameEnd := st.tagNameEnd }, bc)
        else (st, bc + 1)
      else if charCodeAt S st.pos = some 62 then (st, bc - 1)
      else (st, bc) := rfl

theorem dtScan_false_of_ge (S : JStr) (b : Bool) :
    ∀ (fuel : Nat) (p d : Int), d ≠ 0 → (S.length : Int) ≤ p →
      doctypeDepthReachesZero S b fuel p d = false := by
  intro fuel p d hd hp
  cases fuel with
  | zero => rfl
  | succ n =>
    simp only [doctypeDepthReachesZero]
    rw [if_neg hd, if_pos hp]

theorem dtScan_depth0 (S : JStr) (b : Bool) (n : Nat) (p : Int) :
    doctypeDepthReachesZero S b (n+1) p 0 = true := by
  simp [doctypeDepthReachesZero]

theorem dtScan_one_false (S : JStr) (b : Bool) (p d : Int) (hd : d ≠ 0) :
    doctypeDepthReachesZero S b 1 p d = false := by
  simp only [doctypeDepthReachesZero]
  rw [if_neg hd]
  split
  · rfl
  · split
    · split <;> rfl
    · split <;> rfl

theorem doctypeLoop_dtScan (S : JStr) :
    ∀ (fuel : Nat) (st : TSaxState) (bc : Int), 0 < bc →
      ((doctypeLoop S fuel st bc).2 = 0 ↔
        doctypeDepthReachesZero S true (fuel + 1) st.pos bc = true) := by
  intro fuel
  induction fuel with
  | zero =>
    intro st bc hbc
    constructor
    · intro h
      have h' : bc = 0 := h
      exact absurd h' (by omega)
    · intro h
      rw [dtScan_one_false S true st.pos bc (by omega)] at h
      exact Bool.noConfusion h
  | succ n ih =>
    intro st bc hbc
    have hbc' : bc ≠ 0 := by omega
    rw [doctypeLoop_succ, dtScan_succ_true, if_neg hbc']
    by_cases hlen : (S.length : Int) ≤ st.pos
    · rw [if_pos hlen]
      have hcc := charCodeAt_none_of_ge hlen
      have hstep : doctypeStep S st bc = (st, bc) := by
        rw [doctypeStep_eq, if_neg (by simp [hcc]), if_neg (by simp [hcc])]
      rw [hstep]
      rw [if_neg (fun hc => absurd hc.2
        (show ¬ st.pos + 1 < (S.length : Int) by omega))]
      constructor
      · intro h
        exact absurd h hbc'
      · intro h
        exact Bool.noConfusion h
    · rw [if_neg hlen]
      by_cases hc60 : charCodeAt S st.pos = some 60
      · rw [if_pos hc60]
        by_cases hc63 : charCodeAt S (st.pos + 1) = some 63
        · rw [if_pos hc63]
          have hstep : doctypeStep S st bc =
              ({ (parseProcessingInstruction S st).1 with
                  tagNameStart := st.tagNameStart, tagNameEnd := st.tagNameEnd }, bc) := by
            rw [doctypeStep_eq, if_pos hc60, if_pos hc63]
          rw [hstep]
          dsimp only
          rw [parsePI_pos_eq]
          by_cases hrec : piAdvance S st.pos + 1 < (S.length : Int)
          · rw [if_pos ⟨hbc, hrec⟩]
            exact ih _ bc hbc
          · rw [if_neg (fun hc => hrec hc.2)]
            rw [dtScan_false_of_ge S true (n+1) _ bc hbc' (by omega)]
            constructor
            · intro h
              exact absurd h hbc'
            · intro h
              exact Bool.noConfusion h
        · rw [if_neg hc63]
          have hstep : doctypeStep S st bc = (st, bc + 1) := by
            rw [doctypeStep_eq, if_pos hc60, if_neg hc63]
          rw [hstep]
          dsimp only
          by_cases hrec : st.pos + 1 < (S.length : Int)
          · rw [if_pos ⟨by omega, hrec⟩]
            exact ih _ (bc + 1) (by omega)
          · rw [if_neg (fun hc => hrec hc.2)]
            rw [dtScan_false_of_ge S true (n+1) _ (bc + 1) (by omega) (by omega)]
            constructor
            · intro h
              exact absurd h (by omega)
            · intro h
              exact Bool.noConfusion h
      · rw [if_neg hc60]
        by_cases hc62 : charCodeAt S st.pos = some 62
        · rw [if_pos hc62]
          have hstep : doctypeStep S st bc = (st, bc - 1) := by
            rw [doctypeStep_eq, if_neg hc60, if_pos hc62]
          rw [hstep]
          dsimp only
          by_cases hbc1 : bc = 1
          · rw [hbc1]
            rw [if_neg (fun hc => absurd hc.1 (by norm_num))]
            rw [show (1:Int) - 1 = 0 by norm_num, dtScan_depth0]
            constructor
            · intro _
              rfl
            · intro _
              rfl
          · by_cases hrec : st.pos + 1 < (S.length : Int)
            · rw [if_pos ⟨by omega, hrec⟩]
              exact ih _ (bc - 1) (by omega)
            · rw [if_neg (fun hc => hrec hc.2)]
              rw [dtScan_false_of_ge S true (n+1) _ (bc - 1) (by omega) (by omega)]
              constructor
              · intro h
                exact absurd h (by omega)
              · intro h
                exact Bool.noConfusion h
        · rw [if_neg hc62]
          have hstep : doctypeStep S st bc = (st, bc) := by
            rw [doctypeStep_eq, if_neg hc60, if_neg hc62]
          rw [hstep]
          dsimp only
          by_cases hrec : st.pos + 1 < (S.length : Int)
          · rw [if_pos ⟨hbc, hrec⟩]
            exact ih _ bc hbc
          · rw [if_neg (fun hc => hrec hc.2)]
            rw [dtScan_false_of_ge S true (n+1) _ bc hbc' (by omega)]
            constructor
            · intro h
              exact absurd h hbc'
            · intro h
              exact Bool.noConfusion h

/-! ### Claim theorems -/

/-- C1: on a self-closing tag whose attribute value holds the unresolvable
entity `&bad;`, a resolved-mode `attributes()` call does record the
diagnostic, but it returns `undefined` — not the documented `"error"`
marker.  The claim (and the accessor's own documentation) say the error
marker is returned; the code returns `undefined`. -/
theorem c1_attributes_entity_failure :
    (next ex1S tSaxInit).2 = .singleTag ∧
    (attributes ex1S 50 (next ex1S tSaxInit).1 false).map (fun r => r.2) =
      some AttrResult.undef ∧
    (attributes ex1S 50 (next ex1S tSaxInit).1 false).bind (fun r => r.1.error) =
      some (js "Unresolveable entity \"bad\" at 1:4") := by
  refine ⟨by decide, by decide, by decide⟩

/-- C2: after the doctype event of `<!DOCTYPE foo:bar[<?baz >>><<<<?>]>`,
`piTarget()` does not return `undefined`: the nested processing-instruction
scan left `piTargetEnd` set (only `tagNameStart`/`tagNameEnd` are saved and
restored), so the accessor returns the junk string `"foo:bar[<?baz"`. -/
theorem c2_piTarget_after_doctype :
    (next ex2S tSaxInit).2 = .doctype ∧
    piTarget ex2S (next ex2S tSaxInit).1 = some (js "foo:bar[<?baz") := by
  refine ⟨by decide, by decide⟩

/-- C5: the line-counting loop of `humanReadablePos` never executes (its
scan position starts at 0, failing the `pos > 0` entry condition), so every
diagnostic reports line 1 and column `offset + 1`.  At offset 2 of
`"a\n<!x"` the code reports `1:3`, while the claim's formulas give line
`1 + 1 = 2` (one newline strictly before offset 2) and column
`2 - 1 = 1`. -/
theorem c5_error_position :
    (next ex5S tSaxInit).2 = .text ∧
    (next ex5S (next ex5S tSaxInit).1).2 = .error ∧
    (next ex5S (next ex5S tSaxInit).1).1.error =
      some (js "Unexpected character sequence <!x at 1:3") ∧
    humanReadablePos ex5S 2 = js "1:3" ∧
    1 + newlinesBefore ex5S 2 = 2 ∧
    newlineBefore ex5S 2 = some 1 ∧
    humanReadablePos ex5S 2 ≠ js "2:1" := by
  refine ⟨by decide, by decide, by decide, by decide, by decide, by decide, by decide⟩

/-- C9: entity round-trip on concrete text nodes.  `text(raw=true)` on the
text node `&amp;123` returns it verbatim, resolved mode returns `&123`;
the numeric references `&#x20;` (hexadecimal) and `&#32;` (decimal) both
resolve to a single space. -/
theorem c9_entity_roundtrip :
    (next (js "&amp;123<") tSaxInit).2 = .text ∧
    (text (js "&amp;123<") 50 (next (js "&amp;123<") tSaxInit).1 true).map (fun p => p.2) =
      some (some (js "&amp;123")) ∧
    (text (js "&amp;123<") 50 (next (js "&amp;123<") tSaxInit).1 false).map (fun p => p.2) =
      some (some (js "&123")) ∧
    (text (js "&#x20;<") 50 (next (js "&#x20;<") tSaxInit).1 false).map (fun p => p.2) =
      some (some (js " ")) ∧
    (text (js "&#32;<") 50 (next (js "&#32;<") tSaxInit).1 false).map (fun p => p.2) =
      some (some (js " ")) := by
  refine ⟨by decide, by decide, by decide, by decide, by decide⟩

/-- The parser state after the text event of `ex3S`. -/
def ex3St : TSaxState := (next ex3S tSaxInit).1

/-- The stable state of the entity-resolution loop on `a1&b`: the
missing-semicolon diagnostic is recorded and the accidental entity `a1&`
(which `parseInt` resolves to the character with code 1) is cached. -/
def ex3StE : TSaxState :=
  { ex3St with error := some (js "Missing semicolon at 1:5"),
               entityCache := initEntityCache ++ [(js "a1&", [1])] }

/-- From its stable state, the entity-resolution loop on `a1&b` never
returns, whatever the fuel: the missing-semicolon branch records a
diagnostic but does not return, the accidental entity `a1&` resolves, and
the next `&` search restarts from index 0, finding the same `&` again. -/
theorem unescapeLoop_ex3_diverges :
    ∀ (fuel : Nat) (acc : JStr),
      unescapeLoop ex3S (js "a1&b") fuel ex3StE 2 (-1) acc = none := by
  intro fuel
  induction fuel with
  | zero => intro acc; rfl
  | succ n ih =>
    intro acc
    show unescapeLoop ex3S (js "a1&b") n ex3StE 2 (-1) (acc ++ js "a1" ++ [1]) = none
    exact ih _

/-- C3: on the text node `a1&b` (input `a1&b<`), resolved-mode `text()`
never terminates: the reference `&b` has no closing semicolon, and instead
of returning after recording the diagnostic, the loop resolves the
accidental entity `a1&` and rescans the same `&` forever.  The claim says
the call terminates and returns the failure value. -/
theorem c3_missing_semicolon :
    (next ex3S tSaxInit).2 = .text ∧
    ∀ fuel : Nat, text ex3S fuel (next ex3S tSaxInit).1 false = none := by
  refine ⟨by decide, ?_⟩
  intro fuel
  match fuel with
  | 0 => rfl
  | n+1 =>
    show unescapeLoop ex3S (js "a1&b") n ex3StE 2 (-1) ([] ++ js "a1" ++ [1]) = none
    exact unescapeLoop_ex3_diverges n _

/-- The parser state after the start-tag event of `ex4S`. -/
def ex4St : TSaxState := (next ex4S tSaxInit).1

/-- The stable state of the attribute-extraction loop on `<a b='c">`:
the cursor has been reset to 0 by `valueEnd + 1` with `valueEnd = -1`. -/
def ex4StLoop : TSaxState := { ex4St with pos := 0 }

/-- The garbage value the swapped `substring(valueStart, -1)` produces. -/
def ex4V : JStr := js "<a b='"

/-- From its stable state, the attribute-extraction loop on `<a b='c">`
never returns, whatever the fuel: the opening quote is found but `indexOf`
of the closing quote is `-1`, the end-of-input check (`pos >= S.length`)
does not fire because the cursor sits on the opening quote, and
`pos = valueEnd + 1` rewinds the cursor to 0. -/
theorem attributesLoop_ex4_diverges :
    ∀ (fuel : Nat) (attrs : List (JStr × JStr)),
      attributesLoop ex4S false fuel ex4StLoop attrs = none := by
  intro fuel
  induction fuel with
  | zero => intro attrs; rfl
  | succ n ih =>
    intro attrs
    show attributesLoop ex4S false n ex4StLoop (attrInsert attrs (js "a b") ex4V) = none
    exact ih _

/-- C4: on `<a b='c">` (an attribute value with an opening quote whose
closing quote never occurs), `attributes()` neither returns the `"error"`
marker nor terminates at all: the end-of-input check tests the cursor
rather than the failed `indexOf` result, and the loop rescans from
position 0 forever.  The claim says the call terminates with an
unexpected-end-of-input error naming "attribute delimiters". -/
theorem c4_unterminated_attribute_value :
    (next ex4S tSaxInit).2 = .startTag ∧
    ∀ fuel : Nat, attributes ex4S fuel (next ex4S tSaxInit).1 false = none := by
  refine ⟨by decide, ?_⟩
  intro fuel
  match fuel with
  | 0 => rfl
  | n+1 =>
    show attributesLoop ex4S false n ex4StLoop (attrInsert [] (js "b") ex4V) = none
    exact attributesLoop_ex4_diverges n _

/-- C6 amended: `next()` consumes a doctype by depth counting exactly as
claimed, except that the loop's unconditional advance also skips the single
character immediately following an embedded processing instruction.  The
universal part states the equivalence: the event is `doctype` exactly when
the amended depth count (PI consumed in its entirety, plus one further
skipped character) reaches zero before the input ends; the concrete parts
check the spec's doctype example (`tagName`, verbatim body) and the
unexpected-end-of-input error naming "doctype end". -/
theorem c6_amended :
    (∀ (S : JStr) (st : TSaxState),
        ((parseDoctype S st).2 = .doctype ↔
          doctypeDepthReachesZero S true (S.length + 2)
            (posOfFirst S nameEndChars (S.length + 1) (st.pos + 11)) 1 = true)) ∧
    (next ex2S tSaxInit).2 = .doctype ∧
    tagName ex2S (next ex2S tSaxInit).1 = some (js "foo:bar") ∧
    (text ex2S 50 (next ex2S tSaxInit).1 true).map (fun p => p.2) =
      some (some (js "[<?baz >>><<<<?>]")) ∧
    (next ex6eofS tSaxInit).2 = .error ∧
    (next ex6eofS tSaxInit).1.error =
      some (js "Unexpected end of file while scanning for doctype end at 1:12") := by
  refine ⟨?_, by decide, by decide, by decide, by decide, by decide⟩
  intro S st
  have h := doctypeLoop_dtScan S (S.length + 1)
    { st with tagNameStart := st.pos + 10,
              tagNameEnd := posOfFirst S nameEndChars (S.length + 1) (st.pos + 11),
              pos := posOfFirst S nameEndChars (S.length + 1) (st.pos + 11) } 1 (by omega)
  simp only [parseDoctype]
  split
  · next h0 =>
    constructor
    · intro _
      exact h.mp h0
    · intro _
      rfl
  · next h0 =>
    constructor
    · intro hev
      exact absurd hev (by simp [unexpectedEOF, err])
    · intro hscan
      exact absurd (h.mpr hscan) h0

/-- C6 counterexample: on `<!DOCTYPE a[<?p?>>]` the depth count described
by the claim (the embedded PI consumed in its entirety, none of its
characters affecting the count, every other character counted) reaches
zero at the `>` right after the PI, so the claim says the event is
`doctype`; the code instead skips that `>` (the loop's unconditional
advance runs after the nested PI scan as well) and returns `error`. -/
theorem c6_counterexample :
    (next ex6S tSaxInit).2 = .error ∧
    doctypeDepthReachesZero ex6S false (ex6S.length + 2)
      (posOfFirst ex6S nameEndChars (ex6S.length + 1) 11) 1 = true := by
  refine ⟨by decide, by decide⟩

/-- C8: when `next()` is called with the cursor on a character other than
`<` and no `<` occurs at or after the cursor, the text scan's `indexOf`
returns `-1`, the scan reports the unexpected-end-of-file condition, and
`next()` maps that to `eof`, not `error`; in particular `<a/> ` yields
`singleTag` and then `eof`. -/
theorem c8_text_eof :
    (∀ (S : JStr) (st : TSaxState), 0 ≤ st.pos →
      charCodeAt S st.pos ≠ some 60 →
      (∀ j : Nat, st.pos ≤ (j : Int) → S[j]? ≠ some 60) →
      (next S st).2 = .eof) ∧
    (next ex7S tSaxInit).2 = .singleTag ∧
    (next ex7S (next ex7S tSaxInit).1).2 = .eof := by
  refine ⟨?_, by decide, by decide⟩
  intro S st _h0 hc hnone
  have hlt : js "<" = [60] := by decide
  have htE : jsIndexOf S (js "<") st.pos = -1 := by
    rw [hlt]; exact jsIndexOf_single_none hnone
  simp only [next, parseText, add_zero]
  rw [if_pos hc, htE]
  simp [unexpectedEOF, err]

/-- Witness for C8 at a concrete input: a lone non-`<` character yields
`eof`. -/
theorem c8_text_eof_witness :
    charCodeAt (js "x") tSaxInit.pos ≠ some 60 ∧
    (next (js "x") tSaxInit).2 = EventType.eof :=
  ⟨by decide,
   c8_text_eof.1 (js "x") tSaxInit (by decide) (by decide) (by
     intro j hj
     cases j with
     | zero => decide
     | succ n =>
       show ([120] : JStr)[n + 1]? ≠ some 60
       simp)⟩

/-- C7 counterexample, refuting both halves of the claim.  First half: on
`<a/> ` the first `next()` leaves the cursor at 4 and the second returns
`eof` with the cursor at `-1` (the `-1` sentinel of the failed terminator
scan feeds the cursor), so the cursor is not monotonically non-decreasing
across successive `next()` calls.  Second half: on `<a b="c>d"/>` the
start-tag event leaves the cursor at the post-tag position 8 (the first
`>` found after the tag name lies inside the attribute value), yet
`attributes()` returns the mapping `{b: "c>d"}` with the cursor at 12 —
not the original post-tag position — before the next dispatch call. -/
theorem c7_counterexample :
    ((next ex7S tSaxInit).2 = .singleTag ∧
     (next ex7S tSaxInit).1.pos = 4 ∧
     (next ex7S (next ex7S tSaxInit).1).2 = .eof ∧
     (next ex7S (next ex7S tSaxInit).1).1.pos = -1) ∧
    ((next ex7gtS tSaxInit).2 = .startTag ∧
     (next ex7gtS tSaxInit).1.pos = 8 ∧
     attributes ex7gtS 50 (next ex7gtS tSaxInit).1 false =
       some ({ (next ex7gtS tSaxInit).1 with pos := 12 },
         .attrs [(js "b", js "c>d")]) ∧
     (12 : Int) ≠ (next ex7gtS tSaxInit).1.pos) := by
  refine ⟨⟨by decide, by decide, by decide, by decide⟩,
    ⟨by decide, by decide, by decide, by decide⟩⟩

/-- C7 amended: the cursor may decrease across a `next()` call returning
`eof` or `error` (the `-1` sentinel of a failed terminator scan feeds the
cursor); across `next()` calls returning any other event it is
non-decreasing.  `attributes()` temporarily rewinds the cursor; whenever it
returns an attribute mapping, it leaves the cursor one position past the
`>` character at which its scan stopped — which for `<bar foo='baz'/>` is
the original post-tag position. -/
theorem c7_amended :
    (∀ (S : JStr) (st : TSaxState),
        (next S st).2 ≠ .error → (next S st).2 ≠ .eof →
        st.pos ≤ ((next S st).1).pos) ∧
    (∀ (S : JStr) (raw : Bool) (fuel : Nat) (st st' : TSaxState)
        (l l' : List (JStr × JStr)),
        attributesLoop S raw fuel st l = some (st', .attrs l') →
        ∃ q : Int, charCodeAt S q = some 62 ∧ st'.pos = q + 1) ∧
    (attributes ex7okS 50 (next ex7okS tSaxInit).1 false).map (fun r => r.1.pos) =
      some ((next ex7okS tSaxInit).1).pos :=
  ⟨fun _ _ he hf => next_pos_ge he hf,
   fun S raw fuel st st' l l' h => attributesLoop_attrs_pos S raw fuel st st' l l' h,
   by decide⟩

/-- Witness for the amended C7 at a concrete input: a start-tag event does
not move the cursor backwards. -/
theorem c7_amended_witness :
    (next (js "<foo>") tSaxInit).2 ≠ EventType.error ∧
    (next (js "<foo>") tSaxInit).2 ≠ EventType.eof ∧
    tSaxInit.pos ≤ ((next (js "<foo>") tSaxInit).1).pos :=
  ⟨by decide, by decide,
   c7_amended.1 (js "<foo>") tSaxInit (by decide) (by decide)⟩

/-- C10: the recorded diagnostic is sticky.  Once the error field holds a
message, no later `next()`, `text()` or `attributes()` call clears it (the
only writer, `err`, always stores a message); and a `next()` call that
returns `eof` has always just recorded an unexpected-end-of-file
diagnostic, so `error()` is non-`undefined` after a normal `eof` event. -/
theorem c10_error_sticky :
    (∀ (S : JStr) (st : TSaxState), st.error.isSome = true →
        ((next S st).1).error.isSome = true) ∧
    (∀ (S : JStr) (fuel : Nat) (st : TSaxState) (raw : Bool)
        (p : TSaxState × Option JStr),
        text S fuel st raw = some p → st.error.isSome = true →
        p.1.error.isSome = true) ∧
    (∀ (S : JStr) (fuel : Nat) (st : TSaxState) (raw : Bool)
        (p : TSaxState × AttrResult),
        attributes S fuel st raw = some p → st.error.isSome = true →
        p.1.error.isSome = true) ∧
    (∀ (S : JStr) (st : TSaxState), (next S st).2 = .eof →
        ((next S st).1).error.isSome = true) :=
  ⟨fun _ _ h => next_error_mono h,
   fun _ _ _ _ _ h hs => text_error_mono h hs,
   fun _ _ _ _ _ h hs => attributes_error_mono h hs,
   fun _ _ h => next_eof_error h⟩

/-- Witness for C10 at concrete inputs: an already-recorded message
survives a `next()` call, and the `eof` event of a lone text node records
a diagnostic. -/
theorem c10_error_sticky_witness :
    ({ tSaxInit with error := some (js "boom") } : TSaxState).error.isSome = true ∧
    ((next (js "<a/>") { tSaxInit with error := some (js "boom") }).1).error.isSome = true ∧
    (next (js " ") tSaxInit).2 = EventType.eof ∧
    ((next (js " ") tSaxInit).1).error.isSome = true :=
  ⟨by decide,
   c10_error_sticky.1 (js "<a/>") { tSaxInit with error := some (js "boom") } (by decide),
   by decide,
   c10_error_sticky.2.2.2 (js " ") tSaxInit (by decide)⟩

end Tsax
